import Mathlib

/-! Verification of the OLX listing scraper core (app/scraper.py, app/cookies.py,
app/contact_fetcher.py, app/config.py) against its specification.

Python dictionaries are modelled as insertion-ordered association lists with
string keys; Python strings are Lean strings, with the relevant `str` methods
(strip, lower, upper, split, join, startswith) re-implemented structurally over
`List Char` so that concrete instances evaluate inside the kernel.  Machine
effects (Selenium navigation, HTTP calls, the cookie file) are modelled by
explicit oracles and state values.
-/

namespace Olx

/-! Section: Python dict model -/

/-- Membership test `k in d` on a Python dict modelled as an association list. -/
def dmem (d : List (String × α)) (k : String) : Bool :=
  d.any (fun p => p.1 == k)

/-- Lookup `d.get(k)` on a Python dict modelled as an association list. -/
def dlookup (d : List (String × α)) (k : String) : Option α :=
  (d.find? (fun p => p.1 == k)).map (fun p => p.2)

/-- Assignment `d[k] = v`: overwrite the entry if `k` is present, else append
(preserving Python's insertion order). -/
def dinsert (d : List (String × α)) (k : String) (v : α) : List (String × α) :=
  if dmem d k then d.map (fun p => if p.1 == k then (k, v) else p)
  else d ++ [(k, v)]

/-- A dict has each key at most once (true of every real Python dict). -/
def NodupKeys (d : List (String × α)) : Prop :=
  (d.map Prod.fst).Nodup

/-- A record as produced by the scraper: a Python dict of strings. -/
abbrev Rec := List (String × String)

/-! Section: Python string operations, kernel-reducible -/

/-- Python `str.strip()` on the character list (ASCII whitespace). -/
def pyStrip (l : List Char) : List Char :=
  ((l.dropWhile Char.isWhitespace).reverse.dropWhile Char.isWhitespace).reverse

/-- Python `s.strip()`. -/
def strip (s : String) : String := String.mk (pyStrip s.data)

/-- ASCII `str.lower()` on one character. -/
def asciiLower (c : Char) : Char :=
  if 'A' ≤ c ∧ c ≤ 'Z' then Char.ofNat (c.toNat + 32) else c

/-- ASCII `str.upper()` on one character. -/
def asciiUpper (c : Char) : Char :=
  if 'a' ≤ c ∧ c ≤ 'z' then Char.ofNat (c.toNat - 32) else c

/-- Python `s.lower()`. -/
def lower (s : String) : String := String.mk (s.data.map asciiLower)

/-- Python `s.upper()`. -/
def upper (s : String) : String := String.mk (s.data.map asciiUpper)

/-- Python `s.split(sep)` for a one-character separator, Python semantics
(`"".split(",") = [""]`, empty pieces kept). -/
def splitOnChar (sep : Char) : List Char → List (List Char)
  | [] => [[]]
  | c :: rest =>
    if c = sep then [] :: splitOnChar sep rest
    else
      match splitOnChar sep rest with
      | [] => [[c]]
      | g :: gs => (c :: g) :: gs

/-- Python `token.split(" ")[0]`: the prefix before the first space. -/
def firstSpaceField (l : List Char) : List Char :=
  l.takeWhile (fun c => c ≠ ' ')

/-- Python `s.startswith("http")`. -/
def startsWithHttp (s : String) : Bool :=
  List.isPrefixOf "http".data s.data

/-- Python `sep.join(l)`. -/
def pyJoin (sep : String) : List String → String
  | [] => ""
  | [x] => x
  | x :: y :: rest => x ++ sep ++ pyJoin sep (y :: rest)

/-- Python string comparison: lexicographic on code points. -/
def lexLe : List Char → List Char → Bool
  | [], _ => true
  | _ :: _, [] => false
  | a :: as, b :: bs => if a = b then lexLe as bs else decide (a < b)

/-- Comparison `a <= b` on Python strings. -/
def pyLe (a b : String) : Bool := lexLe a.data b.data

/-- One step of insertion sort with respect to `pyLe`. -/
def insertSorted (x : String) : List String → List String
  | [] => [x]
  | y :: ys => if pyLe x y then x :: y :: ys else y :: insertSorted x ys

/-- Python `sorted(l)` on Python strings (ascending, code-point order). -/
def pySorted (l : List String) : List String := l.foldr insertSorted []

/-! Section: Configuration (app/config.py) -/

/-- The fields of `ScraperConfig` that the verified core reads. -/
structure ScraperConfig where
  PAGE_WAIT : Nat
  DETAIL_WAIT : Nat
  LONG_PAUSE_FREQUENCY : Nat
  DETAIL_WORKERS : Nat
  LOGIN_TIMEOUT : Nat
  DEFAULT_MAX_PAGES : Nat
  DEFAULT_MAX_LISTINGS : Nat
  LISTINGS_PER_LOCATION : Nat

/-- The global `SCRAPER_CONFIG` instance with the values from app/config.py. -/
def SCRAPER_CONFIG : ScraperConfig :=
  { PAGE_WAIT := 4
    DETAIL_WAIT := 2
    LONG_PAUSE_FREQUENCY := 100
    DETAIL_WORKERS := 8
    LOGIN_TIMEOUT := 60
    DEFAULT_MAX_PAGES := 3
    DEFAULT_MAX_LISTINGS := 30
    LISTINGS_PER_LOCATION := 30 }

/-- The tuple `OutputConfig.EXCLUDED_COLUMNS`. -/
def EXCLUDED_COLUMNS : List String :=
  ["Breadcrumb Path", "Posted", "chat_available", "call_available",
   "Thumbnail Image", "proxyMobile", "roles", "Images"]

/-! Section: Cookie store (app/cookies.py) -/

/-- One Selenium cookie as stored in the JSON file; `name`/`value` retrieved
with `.get`, hence optional. -/
structure PyCookie where
  name : Option String
  value : Option String
deriving DecidableEq

/-- The observable state of the cookie file: missing, unreadable/corrupt, or a
readable JSON record with a parsed `saved_at` timestamp (seconds since epoch)
and a cookie list. -/
inductive CookieFileState where
  | absent
  | corrupt
  | stored (savedAt : Int) (cookies : List PyCookie)
deriving DecidableEq

/-- The constant `COOKIE_MAX_AGE_DAYS = 7`. -/
def COOKIE_MAX_AGE_DAYS : Nat := 7

/-- The TTL of `load_cookies` in seconds (timedelta comparisons are modelled at
one-second granularity, which the spec's boundary cases use). -/
def COOKIE_TTL_SECONDS : Int := COOKIE_MAX_AGE_DAYS * 86400

/-- Function `load_cookies`: returns the loaded cookie list (or `None`) together with
the resulting state of the backing file.  A missing file yields `None`; an
unreadable file is caught by `except Exception: return None` (the file is left
in place); an expired timestamp deletes the file; an empty cookie list yields
`None` without deleting. -/
def load_cookies : CookieFileState → Int → Option (List PyCookie) × CookieFileState
  | .absent, _ => (none, .absent)
  | .corrupt, _ => (none, .corrupt)
  | .stored savedAt cookies, now =>
    if COOKIE_TTL_SECONDS < now - savedAt then (none, .absent)
    else if cookies.isEmpty then (none, .stored savedAt cookies)
    else (some cookies, .stored savedAt cookies)

/-- Function `delete_cookies`: removes the backing file if present. -/
def delete_cookies : CookieFileState → CookieFileState := fun _ => .absent

/-! Section: Contact-enrichment session acquisition (app/contact_fetcher.py) -/

/-- The fixed authentication-token cookie names of `_has_auth_in_cookies_list`. -/
def AUTH_TOKEN_KEYS : List String :=
  ["kc_access_token", "kc_refresh_token", "kc_id_token", "hb-session-id"]

/-- Lookup in the dict comprehension `\x7bc.get("name"): c.get("value")\x7d`:
for duplicate names the last cookie wins. -/
def cookieDictGet (cookies : List PyCookie) (k : String) : Option (Option String) :=
  ((cookies.filter (fun c => c.name == some k)).getLast?).map (fun c => c.value)

/-- Python truthiness of an optional string (`bool(value)`). -/
def pyTruthy : Option String → Bool
  | none => false
  | some s => !(s == "")

/-- Function `_has_auth_in_cookies_list`: at least one auth-token name maps to a truthy
value. -/
def has_auth_in_cookies_list (cookies : List PyCookie) : Bool :=
  AUTH_TOKEN_KEYS.any (fun k =>
    match cookieDictGet cookies k with
    | some v => pyTruthy v
    | none => false)

/-- Outcome of the single probe request `GET /api/user/`: an HTTP status code,
or a transport exception. -/
inductive ProbeOutcome where
  | status (code : Nat)
  | exn
deriving DecidableEq

/-- Function `_test_saved_cookies`: false on an empty list or missing auth cookies;
otherwise true exactly when the probe returns 200 or 304 (401/403, any other
status, and exceptions all yield false). -/
def test_saved_cookies (cookies : List PyCookie) (probe : ProbeOutcome) : Bool :=
  if cookies.isEmpty || !(has_auth_in_cookies_list cookies) then false
  else
    match probe with
    | .status c =>
      if c == 200 || c == 304 then true
      else if c == 401 || c == 403 then false
      else false
    | .exn => false

/-- The session-acquisition decision of `fetch_contacts`
(`if saved_cookies and _test_saved_cookies(saved_cookies): ...`): `true` means
the saved HTTP session is used with no browser; `false` means a visible
browser is opened for a fresh login. -/
def uses_saved_session (saved : Option (List PyCookie)) (probe : ProbeOutcome) : Bool :=
  match saved with
  | some cs => !cs.isEmpty && test_saved_cookies cs probe
  | none => false

/-- The side effects of one failed contact-API attempt in `fetch_contacts`
(the `if err and ("HTTP 401" in err or "HTTP 403" in err or "HTTP 429" in err)`
block). -/
structure FailureActions where
  paused : Bool
  refreshedFromDriver : Bool
  deletedCookieFile : Bool
deriving DecidableEq

/-- Per-attempt error handling of `fetch_contacts` for an `HTTP <status>`
failure: on 401/403/429 it pauses when rate-limited (429), then refreshes the
session from the live browser if one exists, else deletes the cookie file. -/
def handle_contact_error (status : Nat) (hasDriver : Bool) : FailureActions :=
  if status == 401 || status == 403 || status == 429 then
    { paused := status == 429
      refreshedFromDriver := hasDriver
      deletedCookieFile := !hasDriver }
  else
    { paused := false, refreshedFromDriver := false, deletedCookieFile := false }

/-! Section: Navigation retry loops (scrape_list_page / extract_detail) -/

/-- Outcome of one `driver.get(url)` call: success, a transient network error
(`ERR_NAME_NOT_RESOLVED` / `ERR_INTERNET_DISCONNECTED` / `ERR_CONNECTION*`
inside a `WebDriverException`), or any other `WebDriverException`. -/
inductive NavOutcome where
  | success
  | transient
  | fatal
deriving DecidableEq

/-- How a navigation retry loop ends: the navigation succeeded and the function
proceeds; the loop was exhausted and `scrape_list_page` returns `[]` (its
`for`/`else` branch); or an exception propagates.  Each constructor carries the
number of `driver.get` attempts performed. -/
inductive NavLoopResult where
  | proceeded (attempts : Nat)
  | emptyReturn (attempts : Nat)
  | raised (attempts : Nat)
deriving DecidableEq

/-- The retry loop of `scrape_list_page` (attempt index, remaining fuel): a
transient error sleeps and retries; a non-transient error re-raises; exhausting
the range falls into the `else:` branch, which returns `[]`. -/
def list_page_nav_go (nav : Nat → NavOutcome) : Nat → Nat → NavLoopResult
  | attempt, 0 => .emptyReturn attempt
  | attempt, fuel + 1 =>
    match nav attempt with
    | .success => .proceeded (attempt + 1)
    | .transient => list_page_nav_go nav (attempt + 1) fuel
    | .fatal => .raised (attempt + 1)

/-- The navigation phase of `scrape_list_page(driver, url, ..., max_retries)`. -/
def scrape_list_page_nav (nav : Nat → NavOutcome) (maxRetries : Nat) : NavLoopResult :=
  list_page_nav_go nav 0 maxRetries

/-- The retry loop of `extract_detail`: a transient error retries only while
`attempt < max_retries - 1`, otherwise the exception is re-raised; a
non-transient error re-raises immediately. -/
def detail_nav_go (nav : Nat → NavOutcome) (maxRetries : Nat) : Nat → Nat → NavLoopResult
  | attempt, 0 => .proceeded attempt
  | attempt, fuel + 1 =>
    match nav attempt with
    | .success => .proceeded (attempt + 1)
    | .transient =>
      if attempt + 1 < maxRetries then detail_nav_go nav maxRetries (attempt + 1) fuel
      else .raised (attempt + 1)
    | .fatal => .raised (attempt + 1)

/-- The navigation phase of `extract_detail(driver, url, max_retries)`. -/
def extract_detail_nav (nav : Nat → NavOutcome) (maxRetries : Nat) : NavLoopResult :=
  detail_nav_go nav maxRetries 0 maxRetries

/-! Section: Page collection loop of scrape_single_location (phase 1) -/

/-- The `for page in range(1, max_pages + 1)` loop of `scrape_single_location`:
fetch a page of basic rows, stop on an empty page, extend the running list, and
once the running total reaches the cap truncate to the cap and stop.
`fetchPage` is the oracle for `scrape_list_page` on page `page`. -/
def collect_basics_go (fetchPage : Nat → List Rec) (cap : Nat) :
    Nat → List Rec → Nat → List Rec
  | _, acc, 0 => acc
  | page, acc, fuel + 1 =>
    let basics := fetchPage page
    if basics.isEmpty then acc
    else
      let acc2 := acc ++ basics
      if cap ≤ acc2.length then acc2.take cap
      else collect_basics_go fetchPage cap (page + 1) acc2 fuel

/-- Phase 1 of `scrape_single_location`, pages `1 .. maxPages`. -/
def collect_basics (fetchPage : Nat → List Rec) (maxPages cap : Nat) : List Rec :=
  collect_basics_go fetchPage cap 1 [] maxPages

/-- Line 476 of app/scraper.py: the per-location cap actually used by
`scrape_listings`.  The caller-supplied `max_listings` argument is ignored;
the cap is always `SCRAPER_CONFIG.LISTINGS_PER_LOCATION`. -/
def scrape_listings_cap (max_listings : Option Nat) : Nat :=
  SCRAPER_CONFIG.LISTINGS_PER_LOCATION

/-! Section: Detail/basic merge and output cleaning (scrape_single_location,
extract_detail) -/

/-- Python `v or ""` on a string. -/
def pyOrEmptyStr (s : String) : String := if s == "" then "" else s

/-- The merge loop of `scrape_single_location`:
`merged = dict(detail); for k, v in item.items(): if k not in merged or (not
merged[k] and v): merged[k] = v or ""`. -/
def merge_detail_basic (detail item : Rec) : Rec :=
  item.foldl
    (fun m kv =>
      if dmem m kv.1 = false ∨ (dlookup m kv.1 = some "" ∧ ¬ kv.2 = "") then
        dinsert m kv.1 (pyOrEmptyStr kv.2)
      else m)
    detail

/-- The per-value cleaning of `extract_detail`'s final loop: `None` becomes
`""`, a value that strips to `"N/A"` case-insensitively becomes `""`, any
other string is stripped. -/
def clean_value : Option String → String
  | none => ""
  | some s => if upper (strip s) == "N/A" then "" else strip s

/-- The `clean` loop at the end of `extract_detail`: drop excluded columns and
normalize every remaining value with `clean_value`. -/
def clean_detail (d : List (String × Option String)) : Rec :=
  d.foldl
    (fun acc kv =>
      if kv.1 ∈ EXCLUDED_COLUMNS then acc
      else dinsert acc kv.1 (clean_value kv.2))
    []

/-- The spec's merge precedence for one key: the detail value if non-empty,
else the basic value if non-empty, else the empty string. -/
def merge_spec_value : Option String → Option String → Option String
  | some dv, some bv => some (if dv ≠ "" then dv else if bv ≠ "" then bv else "")
  | some dv, none => some dv
  | none, some bv => some bv
  | none, none => none

/-- The contact-payload merge of `fetch_contacts`: `for k, v in data.items():
if k not in OUTPUT_CONFIG.EXCLUDED_COLUMNS and k not in listing: listing[k] = v`. -/
def merge_contact (listing payload : List (String × α)) : List (String × α) :=
  payload.foldl
    (fun acc kv =>
      if kv.1 ∉ EXCLUDED_COLUMNS ∧ dmem acc kv.1 = false then dinsert acc kv.1 kv.2
      else acc)
    listing

/-! Section: Specification-attribute extraction (extract_specs) -/

/-- The character class of the key regex `[\s\-:/]+` in `extract_specs`. -/
def isSepChar (c : Char) : Bool :=
  c.isWhitespace || c == '-' || c == ':' || c == '/'

/-- Python `re.sub(r"<class>+", "_", s)`: replace every maximal run of characters
matching `sep` by a single underscore.  `inRun` records whether the previous
character was part of a run. -/
def collapseRunsGo (sep : Char → Bool) : Bool → List Char → List Char
  | _, [] => []
  | inRun, c :: rest =>
    if sep c then
      if inRun then collapseRunsGo sep true rest
      else '_' :: collapseRunsGo sep true rest
    else c :: collapseRunsGo sep false rest

/-- The key transform of `extract_specs`:
`re.sub(r"[\s\-:/]+", "_", fragment.strip()).lower()`. -/
def spec_key (s : String) : String :=
  lower (String.mk (collapseRunsGo isSepChar false (strip s).data))

/-- The key transform as worded by the claim: every maximal run of
NON-ALPHANUMERIC characters collapsed to a single underscore, then lowercased.
Written from the spec's words, for comparison with `spec_key`. -/
def claim_key (s : String) : String :=
  lower (String.mk (collapseRunsGo (fun c => !c.isAlphanum) false (strip s).data))

/-- One `li` of `extract_specs`: its non-empty `span`/`div` texts are the
fragments; with at least two fragments, fragment 1 becomes the key and the
rest, joined by single spaces, the value; the pair is stored if both are
non-empty. -/
def li_step (specs : Rec) (fragments : List String) : Rec :=
  let texts := fragments.filter (fun t => !(t == ""))
  if 2 ≤ texts.length then
    let k := spec_key (texts.headD "")
    let v := pyJoin " " texts.tail
    if ¬ k = "" ∧ ¬ v = "" then dinsert specs k v else specs
  else specs

/-- One `dt`/`dd` pair of `extract_specs`. -/
def dl_step (specs : Rec) (row : String × String) : Rec :=
  let k := spec_key row.1
  let v := row.2
  if ¬ k = "" ∧ ¬ v = "" then dinsert specs k v else specs

/-- Function `extract_specs`: process every candidate `li` (its stripped non-empty text
fragments) and then every `dt`/`dd` row. -/
def extract_specs (lis : List (List String)) (dls : List (String × String)) : Rec :=
  dls.foldl dl_step (lis.foldl li_step [])

/-! Section: Image extraction (extract_images, parse_json_ld) -/

/-- A rendered `img` or `source` element with its attribute dict. -/
inductive PageEl where
  | img (attrs : List (String × String))
  | source (attrs : List (String × String))
deriving DecidableEq

/-- Python `element.get(attr)` on the attribute dict. -/
def attrGet (attrs : List (String × String)) (k : String) : Option String :=
  dlookup attrs k

/-- Adding one URL to the accumulated set (`urls.add(u)`), keeping first-seen
order in the model; the result is sorted afterwards, so the order is
irrelevant. -/
def addURL (urls : List String) (u : String) : List String :=
  if u ∈ urls then urls else urls ++ [u]

/-- The first URL of every comma-separated srcset entry:
`token.strip().split(" ")[0]` for each `token` in `srcset.split(",")`. -/
def srcsetFirstURLs (srcset : String) : List String :=
  (splitOnChar ',' srcset.data).map
    (fun token => String.mk (firstSpaceField (pyStrip token)))

/-- The srcset loop shared by the `img` and `source` branches of
`extract_images`: each entry's first URL is added when it starts with "http". -/
def addSrcsetURLs (urls : List String) (srcset : String) : List String :=
  (srcsetFirstURLs srcset).foldl
    (fun us u => if startsWithHttp u then addURL us u else us) urls

/-- The `img` branch of `extract_images`: `src`, `data-src`, and the srcset
entries, each only when it starts with "http". -/
def collect_img_urls (urls : List String) (attrs : List (String × String)) :
    List String :=
  let src := strip ((attrGet attrs "src").getD "")
  let urls := if startsWithHttp src then addURL urls src else urls
  let dsrc := strip ((attrGet attrs "data-src").getD "")
  let urls := if startsWithHttp dsrc then addURL urls dsrc else urls
  let srcset := strip ((attrGet attrs "srcset").getD "")
  if srcset == "" then urls else addSrcsetURLs urls srcset

/-- The `source` branch of `extract_images`: only the srcset entries are
examined (`src`/`data-src` of `source` elements are ignored by the code). -/
def collect_source_urls (urls : List String) (attrs : List (String × String)) :
    List String :=
  let srcset := strip ((attrGet attrs "srcset").getD "")
  if srcset == "" then urls else addSrcsetURLs urls srcset

/-- Selects `img` elements (`soup.find_all("img")`). -/
def imgAttrs : PageEl → Option (List (String × String))
  | .img a => some a
  | _ => none

/-- Selects `source` elements (`soup.find_all("source")`). -/
def sourceAttrs : PageEl → Option (List (String × String))
  | .source a => some a
  | _ => none

/-- Function `extract_images`: accumulate the URL set over all `img` elements, then all
`source` elements, and return `", ".join(sorted(urls))`. -/
def extract_images (soup : List PageEl) : String :=
  let urls := (soup.filterMap imgAttrs).foldl collect_img_urls []
  let urls := (soup.filterMap sourceAttrs).foldl collect_source_urls urls
  pyJoin ", " (pySorted urls)

/-- The URL multiset promised by the claim's words: src, data-src and the first
URL of each srcset entry, from BOTH `img` and `source` elements, with no
restriction on the URL scheme.  Written from the spec's words, for comparison
with `extract_images`. -/
def images_claimed_urls (soup : List PageEl) : List String :=
  (soup.map
    (fun e =>
      let a := match e with | .img a => a | .source a => a
      (match attrGet a "src" with | some s => [strip s] | none => []) ++
      (match attrGet a "data-src" with | some s => [strip s] | none => []) ++
      (match attrGet a "srcset" with
       | some s => if strip s == "" then [] else srcsetFirstURLs (strip s)
       | none => []))).flatten

/-- The Images value promised by the claim's words: the sorted deduplicated
set of `images_claimed_urls`. -/
def images_claimed (soup : List PageEl) : String :=
  pyJoin ", " (pySorted (images_claimed_urls soup).dedup)

/-- The URLs an `img` element actually contributes. -/
def img_urls_of (a : List (String × String)) : List String :=
  let src := strip ((attrGet a "src").getD "")
  let dsrc := strip ((attrGet a "data-src").getD "")
  let srcset := strip ((attrGet a "srcset").getD "")
  (if startsWithHttp src then [src] else []) ++
  (if startsWithHttp dsrc then [dsrc] else []) ++
  (if srcset == "" then [] else (srcsetFirstURLs srcset).filter startsWithHttp)

/-- The URLs a `source` element actually contributes. -/
def source_urls_of (a : List (String × String)) : List String :=
  let srcset := strip ((attrGet a "srcset").getD "")
  if srcset == "" then [] else (srcsetFirstURLs srcset).filter startsWithHttp

/-- The URL multiset `extract_images` actually draws from (amended claim). -/
def images_amended_urls (soup : List PageEl) : List String :=
  ((soup.filterMap imgAttrs).map img_urls_of).flatten ++
  ((soup.filterMap sourceAttrs).map source_urls_of).flatten

/-- The intermediate value of `d["Images"]` inside `extract_detail`, BEFORE
the final clean loop: `parse_json_ld` sets `Images` to
`", ".join(sorted(set(images)))` when the structured-data blocks yield any
image URLs, and only otherwise does
`d.setdefault("Images", extract_images(soup))` consult the rendered elements.
The clean loop then REMOVES the key again, because "Images" is in
`OUTPUT_CONFIG.EXCLUDED_COLUMNS`, so this value never appears in the record
`extract_detail` returns (see `clean_detail`). -/
def images_field (jsonLdImages : List String) (soup : List PageEl) : String :=
  if jsonLdImages.isEmpty then extract_images soup
  else pyJoin ", " (pySorted jsonLdImages.dedup)

/-! Section: Detail phase of scrape_single_location (phase 2) -/

/-- Browser-session lifecycle events of phase 2. -/
inductive DriverEvent where
  | build (headless : Bool)
  | navigate (url : String)
  | quit
deriving DecidableEq

/-- The session events phase 2 performs for one location: one
`build_driver(headless=True)`, then every listing's detail navigation through
that same driver in collection order, then one `driver.quit()`. -/
def detail_phase_events (basics : List Rec) : List DriverEvent :=
  [DriverEvent.build true] ++
  basics.map (fun item => DriverEvent.navigate ((dlookup item "Link").getD "")) ++
  [DriverEvent.quit]

/-- Recognizes session-creation events. -/
def isBuildEvent : DriverEvent → Bool
  | .build _ => true
  | _ => false

/-- Number of browser sessions created in a trace. -/
def sessions_built (events : List DriverEvent) : Nat :=
  events.countP isBuildEvent

/-- The body of the phase-2 loop for one listing: extract the detail record
(an extraction error yields the `\x7b"Link": ..., "error": ...\x7d` record),
merge it with the originating basic record, and tag the location name and key. -/
def detail_step (extract : String → Except String Rec) (locKey locName : String)
    (item : Rec) : Rec :=
  let link := (dlookup item "Link").getD ""
  let detail :=
    match extract link with
    | .ok d => d
    | .error e => [("Link", link), ("error", e)]
  let merged := merge_detail_basic detail item
  let merged := dinsert merged "Scraped_Location" locName
  dinsert merged "Location_Key" locKey

/-- Phase 2 of `scrape_single_location`: the sequential `for idx, item in
enumerate(all_basics)` loop, appending each merged record in order. -/
def detail_phase (extract : String → Except String Rec) (locKey locName : String)
    (basics : List Rec) : List Rec :=
  basics.foldl
    (fun results item => results ++ [detail_step extract locKey locName item]) []

/-! Section: Helper lemmas: dictionary operations -/

instance (d : List (String × α)) : Decidable (NodupKeys d) :=
  List.nodupDecidable (d.map Prod.fst)

theorem dlookup_cons (p : String × α) (d : List (String × α)) (k : String) :
    dlookup (p :: d) k = if p.1 = k then some p.2 else dlookup d k := by
  by_cases h : p.1 = k
  · simp [dlookup, List.find?_cons_of_pos, h]
  · simp [dlookup, List.find?_cons_of_neg, h]

theorem dmem_cons (p : String × α) (d : List (String × α)) (k : String) :
    dmem (p :: d) k = ((p.1 == k) || dmem d k) := by
  simp [dmem, List.any_cons]

theorem dlookup_eq_none_of_not_mem_keys (d : List (String × α)) (k : String)
    (h : k ∉ d.map Prod.fst) : dlookup d k = none := by
  induction d with
  | nil => rfl
  | cons p d ih =>
    simp only [List.map_cons, List.mem_cons, not_or] at h
    rw [dlookup_cons, if_neg (fun e => h.1 e.symm)]
    exact ih h.2

theorem dmem_eq_false_iff (d : List (String × α)) (k : String) :
    dmem d k = false ↔ dlookup d k = none := by
  induction d with
  | nil => simp [dmem, dlookup]
  | cons p d ih =>
    rw [dmem_cons, dlookup_cons]
    by_cases h : p.1 = k
    · simp [h]
    · simp [h, ih]

theorem dmem_eq_true_iff (d : List (String × α)) (k : String) :
    dmem d k = true ↔ ∃ v, dlookup d k = some v := by
  rcases h : dlookup d k with _ | v
  · rw [← dmem_eq_false_iff] at h
    simp [h]
  · have : ¬ dmem d k = false := by
      rw [dmem_eq_false_iff, h]
      simp
    simp only [Bool.not_eq_false] at this
    simp [this, h]

theorem dlookup_overwrite_map (d : List (String × α)) (k k' : String) (v : α) :
    dlookup (d.map (fun p => if p.1 == k then (k, v) else p)) k' =
      if k = k' then (if dmem d k then some v else none)
      else dlookup d k' := by
  induction d with
  | nil =>
    simp only [List.map_nil]
    by_cases hkk : k = k' <;> simp [dlookup, dmem, hkk]
  | cons p d ih =>
    simp only [List.map_cons]
    by_cases hp : p.1 = k
    · rw [if_pos (by simpa using hp), dlookup_cons]
      have hm : dmem (p :: d) k = true := by
        rw [dmem_cons]
        simp [hp]
      rw [hm]
      by_cases hkk : k = k'
      · simp [hkk]
      · simp only [hkk, if_false, if_neg hkk]
        rw [ih, if_neg hkk, dlookup_cons, if_neg (fun e => hkk (hp ▸ e))]
    · rw [if_neg (by simpa using hp), dlookup_cons]
      have hm : dmem (p :: d) k = dmem d k := by
        rw [dmem_cons]
        simp [hp]
      rw [hm]
      by_cases hq : p.1 = k'
      · rw [if_pos hq]
        have hkk : ¬ k = k' := fun e => hp (e ▸ hq)
        rw [if_neg hkk, dlookup_cons, if_pos hq]
      · rw [if_neg hq, ih, dlookup_cons, if_neg hq]

theorem dlookup_append_single (d : List (String × α)) (k k' : String) (v : α) :
    dlookup (d ++ [(k, v)]) k' =
      match dlookup d k' with
      | some w => some w
      | none => if k = k' then some v else none := by
  induction d with
  | nil =>
    simp only [List.nil_append]
    rw [dlookup_cons]
    simp [dlookup]
  | cons p d ih =>
    rw [List.cons_append, dlookup_cons, dlookup_cons]
    by_cases hq : p.1 = k'
    · simp [hq]
    · simp only [hq, if_false]
      exact ih

theorem dlookup_dinsert (d : List (String × α)) (k k' : String) (v : α) :
    dlookup (dinsert d k v) k' = if k = k' then some v else dlookup d k' := by
  unfold dinsert
  by_cases hmem : dmem d k
  · rw [if_pos hmem, dlookup_overwrite_map, hmem]
    by_cases hkk : k = k' <;> simp [hkk]
  · rw [if_neg hmem, dlookup_append_single]
    have hnone : dlookup d k = none :=
      (dmem_eq_false_iff d k).mp (by simpa using hmem)
    by_cases hkk : k = k'
    · subst hkk
      rw [hnone]
    · rcases h : dlookup d k' with _ | w <;> simp [h, hkk]

theorem dlookup_dinsert_self (d : List (String × α)) (k : String) (v : α) :
    dlookup (dinsert d k v) k = some v := by
  rw [dlookup_dinsert, if_pos rfl]

theorem dlookup_dinsert_ne (d : List (String × α)) (k k' : String) (v : α)
    (h : k ≠ k') : dlookup (dinsert d k v) k' = dlookup d k' := by
  rw [dlookup_dinsert, if_neg h]

theorem dmem_dinsert_ne (d : List (String × α)) (k k' : String) (v : α)
    (h : k ≠ k') : dmem (dinsert d k v) k' = dmem d k' := by
  rcases hm : dmem d k' with _ | _
  · rw [dmem_eq_false_iff] at hm ⊢
    rw [dlookup_dinsert_ne _ _ _ _ h]
    exact hm
  · rw [dmem_eq_true_iff] at hm ⊢
    rcases hm with ⟨v', hv'⟩
    exact ⟨v', by rw [dlookup_dinsert_ne _ _ _ _ h]; exact hv'⟩

/-! Section: Helper lemmas: the Python string order and `sorted` -/

theorem lexLe_refl (a : List Char) : lexLe a a = true := by
  induction a with
  | nil => rfl
  | cons x xs ih => simpa [lexLe] using ih

theorem lexLe_total (a b : List Char) : lexLe a b = true ∨ lexLe b a = true := by
  induction a generalizing b with
  | nil => exact Or.inl rfl
  | cons x xs ih =>
    cases b with
    | nil => exact Or.inr rfl
    | cons y ys =>
      by_cases h : x = y
      · subst h
        simpa [lexLe] using ih ys
      · rcases lt_trichotomy x y with hlt | heq | hgt
        · left; simp [lexLe, h, hlt]
        · exact absurd heq h
        · right; simp [lexLe, Ne.symm h, hgt]

theorem lexLe_trans (a b c : List Char) (hab : lexLe a b = true)
    (hbc : lexLe b c = true) : lexLe a c = true := by
  induction a generalizing b c with
  | nil => rfl
  | cons x xs ih =>
    cases b with
    | nil => simp [lexLe] at hab
    | cons y ys =>
      cases c with
      | nil => simp [lexLe] at hbc
      | cons z zs =>
        by_cases hxy : x = y
        · subst hxy
          simp only [lexLe, if_pos rfl] at hab
          by_cases hyz : x = z
          · subst hyz
            simp only [lexLe, if_pos rfl] at hbc ⊢
            exact ih ys zs hab hbc
          · simpa [lexLe, hyz] using hbc
        · simp only [lexLe, if_neg hxy, decide_eq_true_eq] at hab
          by_cases hyz : y = z
          · subst hyz
            simp [lexLe, hxy, hab]
          · simp only [lexLe, if_neg hyz, decide_eq_true_eq] at hbc
            have hxz : x < z := lt_trans hab hbc
            simp [lexLe, ne_of_lt hxz, hxz]

theorem lexLe_antisymm (a b : List Char) (hab : lexLe a b = true)
    (hba : lexLe b a = true) : a = b := by
  induction a generalizing b with
  | nil =>
    cases b with
    | nil => rfl
    | cons y ys => simp [lexLe] at hba
  | cons x xs ih =>
    cases b with
    | nil => simp [lexLe] at hab
    | cons y ys =>
      by_cases hxy : x = y
      · subst hxy
        simp only [lexLe, if_pos rfl] at hab hba
        rw [ih ys hab hba]
      · simp only [lexLe, if_neg hxy, decide_eq_true_eq] at hab
        simp only [lexLe, if_neg (Ne.symm hxy), decide_eq_true_eq] at hba
        exact absurd hba (lt_asymm hab)

theorem pyLe_total (a b : String) : pyLe a b = true ∨ pyLe b a = true :=
  lexLe_total a.data b.data

theorem pyLe_trans (a b c : String) (hab : pyLe a b = true)
    (hbc : pyLe b c = true) : pyLe a c = true :=
  lexLe_trans a.data b.data c.data hab hbc

theorem pyLe_antisymm (a b : String) (hab : pyLe a b = true)
    (hba : pyLe b a = true) : a = b := by
  cases a with
  | mk la =>
    cases b with
    | mk lb =>
      have : la = lb := lexLe_antisymm la lb hab hba
      rw [this]

instance : IsAntisymm String (fun a b => pyLe a b = true) :=
  ⟨fun a b => pyLe_antisymm a b⟩

theorem perm_insertSorted (x : String) (l : List String) :
    (insertSorted x l).Perm (x :: l) := by
  induction l with
  | nil => exact List.Perm.refl _
  | cons y ys ih =>
    rw [insertSorted]
    by_cases h : pyLe x y = true
    · rw [if_pos h]
    · rw [if_neg h]
      exact (ih.cons y).trans (List.Perm.swap x y ys)

theorem mem_insertSorted (x v : String) (l : List String) :
    v ∈ insertSorted x l ↔ v = x ∨ v ∈ l := by
  rw [(perm_insertSorted x l).mem_iff, List.mem_cons]

theorem perm_pySorted (l : List String) : (pySorted l).Perm l := by
  induction l with
  | nil => exact List.Perm.refl _
  | cons x xs ih =>
    exact (perm_insertSorted x (pySorted xs)).trans (ih.cons x)

theorem sorted_insertSorted (x : String) (l : List String)
    (h : l.Sorted (fun a b => pyLe a b = true)) :
    (insertSorted x l).Sorted (fun a b => pyLe a b = true) := by
  induction l with
  | nil => simp [insertSorted]
  | cons y ys ih =>
    rw [List.sorted_cons] at h
    rw [insertSorted]
    by_cases hxy : pyLe x y = true
    · rw [if_pos hxy]
      rw [List.sorted_cons]
      refine ⟨?_, List.sorted_cons.mpr h⟩
      intro b hb
      rcases List.mem_cons.mp hb with rfl | hb
      · exact hxy
      · exact pyLe_trans x y b hxy (h.1 b hb)
    · rw [if_neg hxy]
      rw [List.sorted_cons]
      refine ⟨?_, ih h.2⟩
      intro b hb
      rcases (mem_insertSorted x b ys).mp hb with rfl | hb
      · rcases pyLe_total b y with hby | hyb
        · exact absurd hby hxy
        · exact hyb
      · exact h.1 b hb

theorem sorted_pySorted (l : List String) :
    (pySorted l).Sorted (fun a b => pyLe a b = true) := by
  induction l with
  | nil => simp [pySorted]
  | cons x xs ih => exact sorted_insertSorted x (pySorted xs) ih

theorem pySorted_eq_of_perm (l₁ l₂ : List String) (h : l₁.Perm l₂) :
    pySorted l₁ = pySorted l₂ :=
  List.eq_of_perm_of_sorted
    ((perm_pySorted l₁).trans (h.trans (perm_pySorted l₂).symm))
    (sorted_pySorted l₁) (sorted_pySorted l₂)

/-! Section: Helper lemmas: session acquisition -/

theorem uses_saved_session_iff (saved : Option (List PyCookie)) (probe : ProbeOutcome) :
    uses_saved_session saved probe = true ↔
      ∃ cs, saved = some cs ∧ cs ≠ [] ∧ has_auth_in_cookies_list cs = true ∧
        (probe = ProbeOutcome.status 200 ∨ probe = ProbeOutcome.status 304) := by
  cases saved with
  | none => simp [uses_saved_session]
  | some cs =>
    have step : uses_saved_session (some cs) probe = true ↔
        (cs.isEmpty = false ∧ test_saved_cookies cs probe = true) := by
      simp [uses_saved_session, Bool.and_eq_true, Bool.not_eq_true']
    rw [step]
    by_cases he : cs.isEmpty = true
    · have : cs = [] := List.isEmpty_iff.mp he
      subst this
      simp
    · have hne : cs ≠ [] := by simpa [List.isEmpty_iff] using he
      have hef : cs.isEmpty = false := by simpa using he
      cases probe with
      | exn =>
        simp [test_saved_cookies]
      | status c =>
        by_cases hauth : has_auth_in_cookies_list cs = true
        · have htest : test_saved_cookies cs (ProbeOutcome.status c) =
              (if (c == 200 || c == 304) = true then true
               else if (c == 401 || c == 403) = true then false else false) := by
            simp [test_saved_cookies, hef, hauth]
          rw [htest]
          constructor
          · rintro ⟨-, hres⟩
            by_cases h200 : (c == 200 || c == 304) = true
            · have hc : c = 200 ∨ c = 304 := by simpa using h200
              exact ⟨cs, rfl, hne, hauth,
                hc.imp (fun e => by rw [e]) (fun e => by rw [e])⟩
            · rw [if_neg h200] at hres
              by_cases h4 : (c == 401 || c == 403) = true
              · rw [if_pos h4] at hres
                cases hres
              · rw [if_neg h4] at hres
                cases hres
          · rintro ⟨ds, hds, -, -, hstatus⟩
            refine ⟨hef, ?_⟩
            have hc : c = 200 ∨ c = 304 := by
              rcases hstatus with h | h
              · exact Or.inl (by injection h)
              · exact Or.inr (by injection h)
            have hcond : (c == 200 || c == 304) = true := by
              rcases hc with rfl | rfl <;> simp
            rw [if_pos hcond]
        · have haf : has_auth_in_cookies_list cs = false := by simpa using hauth
          have htest : test_saved_cookies cs (ProbeOutcome.status c) = false := by
            simp [test_saved_cookies, haf]
          rw [htest]
          constructor
          · rintro ⟨-, h⟩
            cases h
          · rintro ⟨ds, hds, -, hauth2, -⟩
            have hcd : cs = ds := by injection hds
            rw [← hcd, haf] at hauth2
            cases hauth2

/-! Section: Helper lemmas: phase 2 of scrape_single_location -/

theorem foldl_append_singleton (f : α → β) (l : List α) :
    l.foldl (fun rs a => rs ++ [f a]) [] = l.map f := by
  suffices h : ∀ acc : List β, l.foldl (fun rs a => rs ++ [f a]) acc = acc ++ l.map f by
    simpa using h []
  induction l with
  | nil => intro acc; simp
  | cons x xs ih =>
    intro acc
    simp only [List.foldl_cons, List.map_cons]
    rw [ih]
    simp

/-! Section: Helper lemmas: joining non-empty strings -/

theorem append_ne_empty_left (s t : String) (h : s ≠ "") : s ++ t ≠ "" := by
  cases s with
  | mk ls =>
    cases t with
    | mk lt =>
      intro he
      apply h
      have hdata : ls ++ lt = [] := congrArg String.data he
      rcases List.append_eq_nil.mp hdata with ⟨h1, _⟩
      rw [h1]

theorem pyJoin_ne_empty (sep : String) (l : List String) (hne : l ≠ [])
    (h : ∀ x ∈ l, x ≠ "") : pyJoin sep l ≠ "" := by
  induction l with
  | nil => exact absurd rfl hne
  | cons x xs ih =>
    cases xs with
    | nil =>
      simpa [pyJoin] using h x (List.mem_cons_self x [])
    | cons y ys =>
      rw [pyJoin]
      exact append_ne_empty_left _ _
        (append_ne_empty_left _ _ (h x (List.mem_cons_self x _)))

/-! Section: Claim C4 -/

/-- Claim C4 counterexample: for an unreadable/corrupt cookie file,
`load_cookies` returns `None` but does NOT delete the backing record (the
`except Exception` handler returns before any `os.remove`), contradicting the
claim that corruption also deletes the file. -/
theorem c4_counterexample :
    load_cookies CookieFileState.corrupt 0 = (none, CookieFileState.corrupt) ∧
    ¬ load_cookies CookieFileState.corrupt 0 = (none, CookieFileState.absent) := by
  decide

/-- Claim C4 (amended): `load_cookies` returns `None` and deletes the backing
record exactly when the stored timestamp exceeds the 7-day TTL (in particular
at `savedAt = now - 7 days - 1 second`); at `savedAt = now - 7 days + 1 second`
with a non-empty cookie list it returns the stored cookies and keeps the file;
an unreadable/corrupt file yields `None` without raising, but the backing
record is left in place, not deleted. -/
theorem c4_ttl_and_corruption (now savedAt : Int) (cookies : List PyCookie) :
    (COOKIE_TTL_SECONDS < now - savedAt →
      load_cookies (CookieFileState.stored savedAt cookies) now =
        (none, CookieFileState.absent)) ∧
    (savedAt = now - COOKIE_TTL_SECONDS - 1 →
      load_cookies (CookieFileState.stored savedAt cookies) now =
        (none, CookieFileState.absent)) ∧
    (savedAt = now - COOKIE_TTL_SECONDS + 1 → cookies ≠ [] →
      load_cookies (CookieFileState.stored savedAt cookies) now =
        (some cookies, CookieFileState.stored savedAt cookies)) ∧
    load_cookies CookieFileState.corrupt now = (none, CookieFileState.corrupt) := by
  refine ⟨?_, ?_, ?_, rfl⟩
  · intro h
    simp only [load_cookies]
    rw [if_pos h]
  · intro h
    simp only [load_cookies]
    rw [if_pos (by omega)]
  · intro h hne
    simp only [load_cookies]
    rw [if_neg (by omega), if_neg (by simpa [List.isEmpty_iff] using hne)]

/-- Witness for C4 at concrete inputs: one second past the TTL the file is
deleted and `None` returned; one second inside the TTL the cookies come back. -/
theorem c4_witness :
    load_cookies (CookieFileState.stored (0 - COOKIE_TTL_SECONDS - 1) []) 0 =
      (none, CookieFileState.absent) ∧
    load_cookies
        (CookieFileState.stored (0 - COOKIE_TTL_SECONDS + 1)
          [⟨some "kc_access_token", some "t"⟩]) 0 =
      (some [⟨some "kc_access_token", some "t"⟩],
        CookieFileState.stored (0 - COOKIE_TTL_SECONDS + 1)
          [⟨some "kc_access_token", some "t"⟩]) := by
  constructor
  · exact (c4_ttl_and_corruption 0 (0 - COOKIE_TTL_SECONDS - 1) []).2.1 rfl
  · exact (c4_ttl_and_corruption 0 (0 - COOKIE_TTL_SECONDS + 1)
      [⟨some "kc_access_token", some "t"⟩]).2.2.1 rfl (by simp)

/-! Section: Claim C5 -/

/-- Claim C5: `fetch_contacts` runs on the saved cookie session with no browser
interaction if and only if the cookie store yields a (hence non-expired,
non-empty) cookie list that contains at least one of the fixed auth-token
cookie names with a truthy value, and the single probe request against the
user API returns HTTP 200 or 304; in every other case (no stored cookies,
expired store, no auth token, probe 401/403, probe transport error, any other
probe status) a visible browser is opened for a fresh login. -/
theorem c5_saved_session_iff (st : CookieFileState) (now : Int) (probe : ProbeOutcome) :
    uses_saved_session (load_cookies st now).1 probe = true ↔
      ∃ cs, (load_cookies st now).1 = some cs ∧ cs ≠ [] ∧
        has_auth_in_cookies_list cs = true ∧
        (probe = ProbeOutcome.status 200 ∨ probe = ProbeOutcome.status 304) :=
  uses_saved_session_iff ((load_cookies st now).1) probe

/-- Witness for C5: a fresh store with a `kc_access_token` cookie and a probe
answering 200 takes the no-browser path. -/
theorem c5_witness :
    uses_saved_session
      (load_cookies (CookieFileState.stored 0 [⟨some "kc_access_token", some "t"⟩]) 0).1
      (ProbeOutcome.status 200) = true := by
  apply (c5_saved_session_iff (CookieFileState.stored 0 [⟨some "kc_access_token", some "t"⟩])
    0 (ProbeOutcome.status 200)).mpr
  exact ⟨[⟨some "kc_access_token", some "t"⟩], by decide, by decide, by decide, Or.inl rfl⟩

/-! Section: Claim C10 -/

/-- Claim C10: during contact enrichment with no active browser session
(`driver is None`), a 429 attempt failure performs the extra fixed pause AND
deletes the persisted cookie file — the same invalidation used for 401/403 —
and with the file deleted, the next run's session check can never take the
saved-cookie path, forcing a fresh interactive login. -/
theorem c10_rate_limit_deletes_cookies :
    handle_contact_error 429 false =
      { paused := true, refreshedFromDriver := false, deletedCookieFile := true } ∧
    handle_contact_error 401 false =
      { paused := false, refreshedFromDriver := false, deletedCookieFile := true } ∧
    handle_contact_error 403 false =
      { paused := false, refreshedFromDriver := false, deletedCookieFile := true } ∧
    (∀ (st : CookieFileState) (now : Int) (probe : ProbeOutcome),
      uses_saved_session (load_cookies (delete_cookies st) now).1 probe = false) := by
  refine ⟨by decide, by decide, by decide, ?_⟩
  intro st now probe
  rfl

/-! Section: Claim C3 -/

/-- Claim C3 counterexample: when every attempt fails with a transient network
error, `scrape_list_page` makes its 3 attempts and then RETURNS AN EMPTY LIST
through its `for`/`else` branch instead of propagating the error as the claim
states. -/
theorem c3_counterexample :
    scrape_list_page_nav (fun _ => NavOutcome.transient) 3 =
      NavLoopResult.emptyReturn 3 ∧
    ¬ scrape_list_page_nav (fun _ => NavOutcome.transient) 3 =
      NavLoopResult.raised 3 := by
  decide

/-- Claim C3 (amended): with the default `max_retries = 3`, a navigation that
fails transiently on every attempt is tried exactly 3 times in both functions;
`extract_detail` then propagates the error, while `scrape_list_page` swallows
it and returns an empty row list (reporting through the progress callback). A
non-transient navigation error propagates immediately after the first attempt
in both functions. -/
theorem c3_retry_attempts (nav : Nat → NavOutcome) :
    ((∀ i, nav i = NavOutcome.transient) →
      scrape_list_page_nav nav 3 = NavLoopResult.emptyReturn 3 ∧
      extract_detail_nav nav 3 = NavLoopResult.raised 3) ∧
    (nav 0 = NavOutcome.fatal →
      scrape_list_page_nav nav 3 = NavLoopResult.raised 1 ∧
      extract_detail_nav nav 3 = NavLoopResult.raised 1) := by
  constructor
  · intro h
    constructor
    · unfold scrape_list_page_nav
      simp [list_page_nav_go, h 0, h 1, h 2]
    · unfold extract_detail_nav
      simp [detail_nav_go, h 0, h 1, h 2]
  · intro h
    constructor
    · unfold scrape_list_page_nav
      simp [list_page_nav_go, h]
    · unfold extract_detail_nav
      simp [detail_nav_go, h]

/-- Witness for C3: the all-transient oracle and the immediately-fatal oracle
at `max_retries = 3`. -/
theorem c3_witness :
    (scrape_list_page_nav (fun _ => NavOutcome.transient) 3 =
        NavLoopResult.emptyReturn 3 ∧
      extract_detail_nav (fun _ => NavOutcome.transient) 3 =
        NavLoopResult.raised 3) ∧
    (scrape_list_page_nav (fun _ => NavOutcome.fatal) 3 =
        NavLoopResult.raised 1 ∧
      extract_detail_nav (fun _ => NavOutcome.fatal) 3 =
        NavLoopResult.raised 1) :=
  ⟨(c3_retry_attempts (fun _ => NavOutcome.transient)).1 (fun _ => rfl),
   (c3_retry_attempts (fun _ => NavOutcome.fatal)).2 rfl⟩

/-! Section: Claim C1 -/

/-- Claim C1 (code bug): `scrape_listings` accepts and documents a
`max_listings` argument ("Maximum total listings to collect per location") and
its callers pass a user-chosen value, but line 476 sets the per-location cap to
`SCRAPER_CONFIG.LISTINGS_PER_LOCATION` (30), ignoring the argument.  With
`max_listings = 3` and a single page of 4 rows, the location yields 4 records,
not at most 3; the truncation-at-cap mechanics themselves work, but only at
the hard-coded cap of 30 (third conjunct: two pages of 24 rows are truncated
to exactly 30). -/
theorem c1_cap_ignored_code_bug :
    scrape_listings_cap (some 3) = 30 ∧
    (collect_basics
        (fun p => if p == 1 then
          [[("Link", "u1")], [("Link", "u2")], [("Link", "u3")], [("Link", "u4")]]
          else [])
        3 (scrape_listings_cap (some 3))).length = 4 ∧
    (collect_basics (fun _ => List.replicate 24 [("Link", "u")])
        3 (scrape_listings_cap (some 3))).length = 30 := by
  decide

/-! Section: Helper lemmas: the detail/basic merge and output cleaning -/

theorem pyOrEmptyStr_eq (s : String) : pyOrEmptyStr s = s := by
  unfold pyOrEmptyStr
  by_cases h : s = ""
  · simp [h]
  · simp [h]

theorem merge_spec_value_none_right (x : Option String) :
    merge_spec_value x none = x := by
  cases x <;> rfl

theorem merge_detail_basic_lookup (detail item : Rec) (h : NodupKeys item)
    (k : String) :
    dlookup (merge_detail_basic detail item) k =
      merge_spec_value (dlookup detail k) (dlookup item k) := by
  induction item generalizing detail with
  | nil =>
    simp only [merge_detail_basic, List.foldl_nil]
    rw [show dlookup ([] : Rec) k = none from rfl, merge_spec_value_none_right]
  | cons p rest ih =>
    obtain ⟨hp_not, hrest⟩ : p.1 ∉ rest.map Prod.fst ∧ NodupKeys rest := by
      simpa [NodupKeys, List.nodup_cons] using h
    have e : merge_detail_basic detail (p :: rest) =
        merge_detail_basic
          (if dmem detail p.1 = false ∨ (dlookup detail p.1 = some "" ∧ ¬ p.2 = "")
           then dinsert detail p.1 (pyOrEmptyStr p.2) else detail) rest := rfl
    rw [e, ih _ hrest]
    by_cases hpk : p.1 = k
    · rw [hpk]
      rw [dlookup_eq_none_of_not_mem_keys rest k (hpk ▸ hp_not)]
      rw [merge_spec_value_none_right, dlookup_cons, if_pos hpk]
      rcases hd : dlookup detail k with _ | dv
      · have hm : dmem detail k = false := (dmem_eq_false_iff _ _).mpr hd
        rw [if_pos (Or.inl hm), dlookup_dinsert_self, pyOrEmptyStr_eq]
        rfl
      · have hm : dmem detail k = true := (dmem_eq_true_iff _ _).mpr ⟨dv, hd⟩
        by_cases hcond : dv = "" ∧ ¬ p.2 = ""
        · obtain ⟨hdv, hv⟩ := hcond
          subst hdv
          rw [if_pos (Or.inr ⟨rfl, hv⟩)]
          rw [dlookup_dinsert_self, pyOrEmptyStr_eq]
          simp [merge_spec_value, hv]
        · rw [if_neg ?hno]
          case hno =>
            rintro (hA | hB)
            · rw [hm] at hA
              cases hA
            · apply hcond
              refine ⟨?_, hB.2⟩
              injection hB.1
          rw [hd]
          by_cases hdv : dv = ""
          · have hp2 : p.2 = "" := by
              by_contra hp2
              exact hcond ⟨hdv, hp2⟩
            simp [merge_spec_value, hdv, hp2]
          · simp [merge_spec_value, hdv]
    · rw [dlookup_cons, if_neg hpk]
      have harg : dlookup
          (if dmem detail p.1 = false ∨ (dlookup detail p.1 = some "" ∧ ¬ p.2 = "")
           then dinsert detail p.1 (pyOrEmptyStr p.2) else detail) k =
          dlookup detail k := by
        split
        · exact dlookup_dinsert_ne _ _ _ _ hpk
        · rfl
      rw [harg]

theorem clean_detail_fold_lookup (k : String) :
    ∀ (d0 : List (String × Option String)), NodupKeys d0 → ∀ (acc : Rec),
      dlookup (d0.foldl (fun acc kv =>
          if kv.1 ∈ EXCLUDED_COLUMNS then acc
          else dinsert acc kv.1 (clean_value kv.2)) acc) k =
        if k ∈ EXCLUDED_COLUMNS then dlookup acc k
        else
          match dlookup d0 k with
          | some ov => some (clean_value ov)
          | none => dlookup acc k := by
  intro d0
  induction d0 with
  | nil =>
    intro _ acc
    simp only [List.foldl_nil]
    split
    · rfl
    · rfl
  | cons p rest ih =>
    intro h acc
    obtain ⟨hp_not, hrest⟩ : p.1 ∉ rest.map Prod.fst ∧ NodupKeys rest := by
      simpa [NodupKeys, List.nodup_cons] using h
    simp only [List.foldl_cons]
    by_cases hpe : p.1 ∈ EXCLUDED_COLUMNS
    · rw [if_pos hpe, ih hrest acc]
      by_cases hke : k ∈ EXCLUDED_COLUMNS
      · rw [if_pos hke, if_pos hke]
      · rw [if_neg hke, if_neg hke, dlookup_cons,
          if_neg (by intro e2; rw [e2] at hpe; exact hke hpe)]
    · rw [if_neg hpe, ih hrest _]
      by_cases hke : k ∈ EXCLUDED_COLUMNS
      · rw [if_pos hke, if_pos hke,
          dlookup_dinsert_ne _ _ _ _ (by intro e2; rw [e2] at hpe; exact hpe hke)]
      · rw [if_neg hke, if_neg hke]
        by_cases hpk : p.1 = k
        · rw [dlookup_eq_none_of_not_mem_keys rest k (hpk ▸ hp_not)]
          rw [dlookup_cons, if_pos hpk]
          rw [show dinsert acc p.1 (clean_value p.2) =
            dinsert acc k (clean_value p.2) from by rw [hpk]]
          rw [dlookup_dinsert_self]
        · rw [dlookup_cons, if_neg hpk]
          rcases hr : dlookup rest k with _ | ov
          · exact dlookup_dinsert_ne _ _ _ _ hpk
          · rfl

theorem clean_detail_lookup (d0 : List (String × Option String))
    (h : NodupKeys d0) (k : String) :
    dlookup (clean_detail d0) k =
      if k ∈ EXCLUDED_COLUMNS then none
      else (dlookup d0 k).map clean_value := by
  unfold clean_detail
  rw [clean_detail_fold_lookup k d0 h []]
  by_cases hke : k ∈ EXCLUDED_COLUMNS
  · simp [hke, dlookup]
  · simp only [hke, if_false]
    rcases h2 : dlookup d0 k with _ | ov
    · rfl
    · rfl

/-! Section: Claim C6 -/

/-- Claim C6: for the orchestrator's merge of a cleaned detail record `D` with
its originating basic record `B`, the merged value at each key is `D`'s value
if non-empty, else `B`'s value if non-empty, else the empty string (first
conjunct, which also covers keys on only one side); a present non-empty detail
value is never overwritten by an empty basic value (second conjunct); and a
Python `None` stored in the raw detail dict reaches the merge as `""`, never
as `None` (third conjunct; all modelled values are total strings). -/
theorem c6_merge_precedence (d0 : List (String × Option String)) (item : Rec)
    (hd0 : NodupKeys d0) (hitem : NodupKeys item) (k : String) :
    dlookup (merge_detail_basic (clean_detail d0) item) k =
      merge_spec_value (dlookup (clean_detail d0) k) (dlookup item k) ∧
    (∀ dv, dlookup (clean_detail d0) k = some dv → ¬ dv = "" →
      dlookup (merge_detail_basic (clean_detail d0) item) k = some dv) ∧
    (dlookup d0 k = some none → k ∉ EXCLUDED_COLUMNS →
      dlookup (clean_detail d0) k = some "") := by
  refine ⟨merge_detail_basic_lookup _ _ hitem k, ?_, ?_⟩
  · intro dv hdv hne
    rw [merge_detail_basic_lookup _ _ hitem k, hdv]
    rcases dlookup item k with _ | bv
    · rfl
    · simp [merge_spec_value, hne]
  · intro hval hke
    rw [clean_detail_lookup _ hd0 k, if_neg hke, hval]
    rfl

/-- Witness for C6: a cleaned detail record with an empty Price and an `N/A`
Location merged with a basic record; the basic Price fills the gap, the
non-empty detail Title survives, and the stored `None` comes out as `""`. -/
theorem c6_witness :
    dlookup (merge_detail_basic
        (clean_detail [("Title", some "T1"), ("Price", some ""), ("Seller Name", none)])
        [("Title", "T2"), ("Price", "PKR 500000")]) "Price" = some "PKR 500000" ∧
    dlookup (merge_detail_basic
        (clean_detail [("Title", some "T1"), ("Price", some ""), ("Seller Name", none)])
        [("Title", "T2"), ("Price", "PKR 500000")]) "Title" = some "T1" ∧
    dlookup (clean_detail [("Title", some "T1"), ("Price", some ""), ("Seller Name", none)])
      "Seller Name" = some "" := by
  refine ⟨?_, ?_, ?_⟩
  · have h := (c6_merge_precedence
      [("Title", some "T1"), ("Price", some ""), ("Seller Name", none)]
      [("Title", "T2"), ("Price", "PKR 500000")] (by decide) (by decide) "Price").1
    rw [h]
    decide
  · have h := (c6_merge_precedence
      [("Title", some "T1"), ("Price", some ""), ("Seller Name", none)]
      [("Title", "T2"), ("Price", "PKR 500000")] (by decide) (by decide) "Title").2.1
    exact h "T1" (by decide) (by decide)
  · exact (c6_merge_precedence
      [("Title", some "T1"), ("Price", some ""), ("Seller Name", none)]
      [("Title", "T2"), ("Price", "PKR 500000")] (by decide) (by decide)
      "Seller Name").2.2 (by decide) (by decide)

/-! Section: Claim C7 -/

/-- Claim C7: merging a contact payload into a listing changes only keys that
were absent from the listing and are not on the exclusion list — every key
already present in the listing, and every excluded key, keeps its prior lookup
unchanged. -/
theorem c7_contact_merge_frame {α : Type} (listing payload : List (String × α))
    (k : String) (h : dmem listing k = true ∨ k ∈ EXCLUDED_COLUMNS) :
    dlookup (merge_contact listing payload) k = dlookup listing k := by
  induction payload generalizing listing with
  | nil => rfl
  | cons p rest ih =>
    have e : merge_contact listing (p :: rest) =
        merge_contact
          (if p.1 ∉ EXCLUDED_COLUMNS ∧ dmem listing p.1 = false
           then dinsert listing p.1 p.2 else listing) rest := rfl
    rw [e]
    by_cases hc : p.1 ∉ EXCLUDED_COLUMNS ∧ dmem listing p.1 = false
    · rw [if_pos hc]
      have hpk : p.1 ≠ k := by
        intro e2
        rcases h with hm | he
        · rw [e2, hm] at hc
          cases hc.2
        · exact hc.1 (e2 ▸ he)
      have h2 : dmem (dinsert listing p.1 p.2) k = true ∨ k ∈ EXCLUDED_COLUMNS := by
        rcases h with hm | he
        · exact Or.inl (by rw [dmem_dinsert_ne _ _ _ _ hpk]; exact hm)
        · exact Or.inr he
      rw [ih _ h2, dlookup_dinsert_ne _ _ _ _ hpk]
    · rw [if_neg hc]
      exact ih _ h

/-- Witness for C7 at the spec's own example: a listing with `Title = "X"`
keeps `"X"` when the payload carries `Title = "Y"`. -/
theorem c7_witness :
    dlookup (merge_contact [("Title", "X")] [("Title", "Y"), ("mobile", "123")])
      "Title" = some "X" := by
  have h := c7_contact_merge_frame [("Title", "X")] [("Title", "Y"), ("mobile", "123")]
    "Title" (Or.inl (by decide))
  rw [h]
  decide

/-! Section: Claim C9 -/

/-- Claim C9 counterexample: the key regex of `extract_specs` is
`[\s\-:/]+` — it collapses runs of whitespace, hyphen, colon and slash only,
NOT every non-alphanumeric run as the claim states.  On the fragment `"A.B"`
the code produces the key `"a.b"`, while the claim's transform would give
`"a_b"`. -/
theorem c9_counterexample :
    extract_specs [["A.B", "x"]] [] = [("a.b", "x")] ∧
    claim_key "A.B" = "a_b" ∧
    ¬ spec_key "A.B" = claim_key "A.B" := by
  decide

/-- Claim C9 (amended): for every candidate item contributing at least 2
non-empty text fragments, the extracted attribute key is the first fragment
with every maximal run of whitespace/hyphen/colon/slash characters (exactly
the class `[\s\-:/]+`, not all non-alphanumerics) collapsed to a single
underscore and then lowercased (`spec_key`), the value is the remaining
fragments joined by single spaces — a value that is automatically non-empty —
and the pair is recorded whenever the key is non-empty. -/
theorem c9_spec_attribute (specs : Rec) (fragments : List String)
    (h2 : 2 ≤ (fragments.filter (fun t => !(t == ""))).length)
    (hk : ¬ spec_key ((fragments.filter (fun t => !(t == ""))).headD "") = "") :
    dlookup (li_step specs fragments)
        (spec_key ((fragments.filter (fun t => !(t == ""))).headD "")) =
      some (pyJoin " " (fragments.filter (fun t => !(t == ""))).tail) ∧
    ¬ pyJoin " " (fragments.filter (fun t => !(t == ""))).tail = "" := by
  have hvne : ¬ pyJoin " " (fragments.filter (fun t => !(t == ""))).tail = "" := by
    apply pyJoin_ne_empty
    · intro hnil
      have hlen := congrArg List.length hnil
      rw [List.length_tail] at hlen
      simp only [List.length_nil] at hlen
      omega
    · intro x hx
      have hxt : x ∈ fragments.filter (fun t => !(t == "")) :=
        List.mem_of_mem_tail hx
      have := (List.mem_filter.mp hxt).2
      simpa using this
  refine ⟨?_, hvne⟩
  simp only [li_step]
  rw [if_pos h2, if_pos ⟨hk, hvne⟩, dlookup_dinsert_self]

/-- Witness for C9: the fragments `["Fuel Type", "Petrol"]` produce the
attribute `fuel_type = Petrol`. -/
theorem c9_witness :
    dlookup (li_step [] ["Fuel Type", "Petrol"]) "fuel_type" = some "Petrol" := by
  have h := (c9_spec_attribute [] ["Fuel Type", "Petrol"] (by decide) (by decide)).1
  have e1 : spec_key (((["Fuel Type", "Petrol"].filter
      (fun t => !(t == ""))).headD "")) = "fuel_type" := by decide
  have e2 : pyJoin " " ((["Fuel Type", "Petrol"].filter
      (fun t => !(t == ""))).tail) = "Petrol" := by decide
  rw [e1, e2] at h
  exact h

/-! Section: Claim C2 -/

/-- Claim C2 counterexample: for a location with two collected listings, phase
2 creates exactly ONE browser session that performs every detail navigation
sequentially (the code's comment says "Scrape details sequentially for this
location"), while the claim requires dispatch through a bounded pool of
`DETAIL_WORKERS = 8` concurrent workers, each owning a dedicated session.  No
pool exists: the configured worker count is read by nothing. -/
theorem c2_counterexample :
    sessions_built (detail_phase_events [[("Link", "u1")], [("Link", "u2")]]) = 1 ∧
    SCRAPER_CONFIG.DETAIL_WORKERS = 8 ∧
    ¬ sessions_built (detail_phase_events [[("Link", "u1")], [("Link", "u2")]]) =
        SCRAPER_CONFIG.DETAIL_WORKERS := by
  decide

/-- Claim C2 (amended): detail extraction within a location is NOT dispatched
to a worker pool; it runs sequentially on the single control flow, with exactly
one dedicated browser session created for the whole phase, every listing
processed through that session in collection order, and every merged record
tagged with the location key and display name.  `DETAIL_WORKERS` is defined in
the configuration but never consulted. -/
theorem c2_sequential_single_session (extract : String → Except String Rec)
    (locKey locName : String) (basics : List Rec) :
    sessions_built (detail_phase_events basics) = 1 ∧
    detail_phase extract locKey locName basics =
      basics.map (detail_step extract locKey locName) ∧
    ∀ r ∈ detail_phase extract locKey locName basics,
      dlookup r "Location_Key" = some locKey ∧
      dlookup r "Scraped_Location" = some locName := by
  refine ⟨?_, foldl_append_singleton (detail_step extract locKey locName) basics, ?_⟩
  · simp [sessions_built, detail_phase_events, List.countP_append, List.countP_map,
      List.countP_eq_zero, isBuildEvent, Function.comp]
  · intro r hr
    have h2 : detail_phase extract locKey locName basics =
        basics.map (detail_step extract locKey locName) :=
      foldl_append_singleton _ basics
    rw [h2] at hr
    rcases List.mem_map.mp hr with ⟨item, -, rfl⟩
    constructor
    · simp only [detail_step]
      rw [dlookup_dinsert_self]
    · simp only [detail_step]
      rw [dlookup_dinsert_ne _ _ _ _ (by decide), dlookup_dinsert_self]

/-- Witness for C2: a one-listing location; the merged record carries the
location tags. -/
theorem c2_witness :
    dlookup (detail_step (fun l => Except.ok [("Link", l)]) "k1" "L1" [("Link", "u1")])
        "Location_Key" = some "k1" ∧
    dlookup (detail_step (fun l => Except.ok [("Link", l)]) "k1" "L1" [("Link", "u1")])
        "Scraped_Location" = some "L1" :=
  (c2_sequential_single_session (fun l => Except.ok [("Link", l)]) "k1" "L1"
      [[("Link", "u1")]]).2.2
    (detail_step (fun l => Except.ok [("Link", l)]) "k1" "L1" [("Link", "u1")])
    (by decide)

/-! Section: Helper lemmas: the URL set accumulated by extract_images -/

theorem mem_addURL (urls : List String) (u v : String) :
    v ∈ addURL urls u ↔ v ∈ urls ∨ v = u := by
  unfold addURL
  by_cases h : u ∈ urls
  · rw [if_pos h]
    constructor
    · exact Or.inl
    · rintro (hv | rfl)
      · exact hv
      · exact h
  · rw [if_neg h]
    simp [List.mem_append]

theorem nodup_addURL (urls : List String) (u : String) (h : urls.Nodup) :
    (addURL urls u).Nodup := by
  unfold addURL
  by_cases hm : u ∈ urls
  · rw [if_pos hm]
    exact h
  · rw [if_neg hm]
    simp [List.nodup_append, h, hm]

theorem nodup_ite_addURL (c : Prop) [Decidable c] (urls : List String) (u : String)
    (h : urls.Nodup) : (if c then addURL urls u else urls).Nodup := by
  split
  · exact nodup_addURL _ _ h
  · exact h

theorem mem_addHttpFold (l : List String) (urls : List String) (v : String) :
    v ∈ l.foldl (fun us u => if startsWithHttp u then addURL us u else us) urls ↔
      v ∈ urls ∨ (v ∈ l ∧ startsWithHttp v = true) := by
  induction l generalizing urls with
  | nil => simp
  | cons u l ih =>
    rw [List.foldl_cons]
    by_cases hu : startsWithHttp u = true
    · rw [if_pos hu, ih, mem_addURL]
      constructor
      · rintro ((hv | rfl) | ⟨hvl, hvh⟩)
        · exact Or.inl hv
        · exact Or.inr ⟨List.mem_cons_self _ _, hu⟩
        · exact Or.inr ⟨List.mem_cons_of_mem _ hvl, hvh⟩
      · rintro (hv | ⟨hvm, hvh⟩)
        · exact Or.inl (Or.inl hv)
        · rcases List.mem_cons.mp hvm with rfl | hvl
          · exact Or.inl (Or.inr rfl)
          · exact Or.inr ⟨hvl, hvh⟩
    · rw [if_neg hu, ih]
      constructor
      · rintro (hv | ⟨hvl, hvh⟩)
        · exact Or.inl hv
        · exact Or.inr ⟨List.mem_cons_of_mem _ hvl, hvh⟩
      · rintro (hv | ⟨hvm, hvh⟩)
        · exact Or.inl hv
        · rcases List.mem_cons.mp hvm with rfl | hvl
          · exact absurd hvh hu
          · exact Or.inr ⟨hvl, hvh⟩

theorem nodup_addHttpFold (l : List String) (urls : List String) (h : urls.Nodup) :
    (l.foldl (fun us u => if startsWithHttp u then addURL us u else us) urls).Nodup := by
  induction l generalizing urls with
  | nil => exact h
  | cons u l ih =>
    rw [List.foldl_cons]
    by_cases hu : startsWithHttp u = true
    · rw [if_pos hu]
      exact ih _ (nodup_addURL _ _ h)
    · rw [if_neg hu]
      exact ih _ h

theorem mem_collect_img_urls (urls : List String) (a : List (String × String))
    (v : String) :
    v ∈ collect_img_urls urls a ↔ v ∈ urls ∨ v ∈ img_urls_of a := by
  simp only [collect_img_urls, img_urls_of, addSrcsetURLs]
  by_cases hsrc : startsWithHttp (strip ((attrGet a "src").getD "")) = true <;>
    by_cases hd : startsWithHttp (strip ((attrGet a "data-src").getD "")) = true <;>
      by_cases hss : (strip ((attrGet a "srcset").getD "") == "") = true <;>
        simp [hsrc, hd, hss, mem_addURL, mem_addHttpFold, List.mem_filter,
          List.mem_append] <;>
          tauto

theorem mem_collect_source_urls (urls : List String) (a : List (String × String))
    (v : String) :
    v ∈ collect_source_urls urls a ↔ v ∈ urls ∨ v ∈ source_urls_of a := by
  simp only [collect_source_urls, source_urls_of, addSrcsetURLs]
  by_cases hss : (strip ((attrGet a "srcset").getD "") == "") = true <;>
    simp [hss, mem_addHttpFold, List.mem_filter]

theorem nodup_collect_img_urls (urls : List String) (a : List (String × String))
    (h : urls.Nodup) : (collect_img_urls urls a).Nodup := by
  simp only [collect_img_urls]
  split
  · exact nodup_ite_addURL _ _ _ (nodup_ite_addURL _ _ _ h)
  · exact nodup_addHttpFold _ _ (nodup_ite_addURL _ _ _ (nodup_ite_addURL _ _ _ h))

theorem nodup_collect_source_urls (urls : List String) (a : List (String × String))
    (h : urls.Nodup) : (collect_source_urls urls a).Nodup := by
  simp only [collect_source_urls]
  split
  · exact h
  · exact nodup_addHttpFold _ _ h

theorem mem_foldl_collect_img (as : List (List (String × String)))
    (urls : List String) (v : String) :
    v ∈ as.foldl collect_img_urls urls ↔
      v ∈ urls ∨ ∃ a ∈ as, v ∈ img_urls_of a := by
  induction as generalizing urls with
  | nil => simp
  | cons a as ih =>
    rw [List.foldl_cons, ih, mem_collect_img_urls]
    constructor
    · rintro ((hv | hva) | ⟨b, hb, hvb⟩)
      · exact Or.inl hv
      · exact Or.inr ⟨a, List.mem_cons_self _ _, hva⟩
      · exact Or.inr ⟨b, List.mem_cons_of_mem _ hb, hvb⟩
    · rintro (hv | ⟨b, hbm, hvb⟩)
      · exact Or.inl (Or.inl hv)
      · rcases List.mem_cons.mp hbm with rfl | hb
        · exact Or.inl (Or.inr hvb)
        · exact Or.inr ⟨b, hb, hvb⟩

theorem mem_foldl_collect_source (as : List (List (String × String)))
    (urls : List String) (v : String) :
    v ∈ as.foldl collect_source_urls urls ↔
      v ∈ urls ∨ ∃ a ∈ as, v ∈ source_urls_of a := by
  induction as generalizing urls with
  | nil => simp
  | cons a as ih =>
    rw [List.foldl_cons, ih, mem_collect_source_urls]
    constructor
    · rintro ((hv | hva) | ⟨b, hb, hvb⟩)
      · exact Or.inl hv
      · exact Or.inr ⟨a, List.mem_cons_self _ _, hva⟩
      · exact Or.inr ⟨b, List.mem_cons_of_mem _ hb, hvb⟩
    · rintro (hv | ⟨b, hbm, hvb⟩)
      · exact Or.inl (Or.inl hv)
      · rcases List.mem_cons.mp hbm with rfl | hb
        · exact Or.inl (Or.inr hvb)
        · exact Or.inr ⟨b, hb, hvb⟩

theorem nodup_foldl_collect_img (as : List (List (String × String)))
    (urls : List String) (h : urls.Nodup) :
    (as.foldl collect_img_urls urls).Nodup := by
  induction as generalizing urls with
  | nil => exact h
  | cons a as ih =>
    rw [List.foldl_cons]
    exact ih _ (nodup_collect_img_urls _ _ h)

theorem nodup_foldl_collect_source (as : List (List (String × String)))
    (urls : List String) (h : urls.Nodup) :
    (as.foldl collect_source_urls urls).Nodup := by
  induction as generalizing urls with
  | nil => exact h
  | cons a as ih =>
    rw [List.foldl_cons]
    exact ih _ (nodup_collect_source_urls _ _ h)

theorem extract_images_eq_amended (soup : List PageEl) :
    extract_images soup = pyJoin ", " (pySorted (images_amended_urls soup).dedup) := by
  simp only [extract_images]
  congr 1
  apply pySorted_eq_of_perm
  apply (List.perm_ext_iff_of_nodup
    (nodup_foldl_collect_source _ _ (nodup_foldl_collect_img _ _ List.nodup_nil))
    (List.nodup_dedup _)).mpr
  intro v
  rw [mem_foldl_collect_source, mem_foldl_collect_img, List.mem_dedup]
  simp only [images_amended_urls, List.mem_append, List.mem_flatten, List.mem_map,
    List.not_mem_nil, false_or]
  constructor
  · rintro ((⟨a, ha, hva⟩ | ⟨a, ha, hva⟩))
    · exact Or.inl ⟨img_urls_of a, ⟨a, ha, rfl⟩, hva⟩
    · exact Or.inr ⟨source_urls_of a, ⟨a, ha, rfl⟩, hva⟩
  · rintro (⟨l, ⟨a, ha, rfl⟩, hv⟩ | ⟨l, ⟨a, ha, rfl⟩, hv⟩)
    · exact Or.inl ⟨a, ha, hv⟩
    · exact Or.inr ⟨a, ha, hv⟩

theorem extract_images_perm_invariant (s₁ s₂ : List PageEl) (h : s₁.Perm s₂) :
    extract_images s₁ = extract_images s₂ := by
  rw [extract_images_eq_amended, extract_images_eq_amended]
  congr 1
  apply pySorted_eq_of_perm
  apply List.Perm.dedup
  unfold images_amended_urls
  exact List.Perm.append
    (((h.filterMap imgAttrs).map img_urls_of).flatten)
    (((h.filterMap sourceAttrs).map source_urls_of).flatten)

/-! Section: Claim C8 -/

/-- Claim C8 counterexample: the ListingDetail returned by `extract_detail`
contains no Images field at all — "Images" is in
`OUTPUT_CONFIG.EXCLUDED_COLUMNS`, so the final clean loop drops the key the
image scan had set (conjuncts 1-2: a cleaned record whose pre-clean dict held
`Images = "http://a.jpg"` looks up `Images` as `none`).  Independently, even
the intermediate scan value does not match the claim's collection rule: a
`source` element carrying its URL in `src` contributes nothing (the code reads
only `srcset` from `source` elements, and only URLs starting with "http"),
while the claim's rule would collect it (conjuncts 3-4). -/
theorem c8_counterexample :
    "Images" ∈ EXCLUDED_COLUMNS ∧
    dlookup (clean_detail
        [("Link", some "http://www.olx.com.pk/item/x-iid-1"),
         ("Images", some "http://a.jpg")]) "Images" = none ∧
    images_field [] [PageEl.source [("src", "http://a.jpg")]] = "" ∧
    images_claimed [PageEl.source [("src", "http://a.jpg")]] = "http://a.jpg" := by
  decide

/-- Claim C8 (amended): the record `extract_detail` returns never contains an
Images key — the clean loop removes it because "Images" is on the exclusion
list (first conjunct, for every well-formed pre-clean dict).  The image scan
still runs on the intermediate dict: when the structured-data block yields no
image URLs, that intermediate `d["Images"]` value equals the comma-joined,
code-point-sorted, deduplicated set of URLs that start with "http", drawn from
`img` elements (src, data-src, and the first URL of each comma-separated
srcset entry) and from `source` elements (first URL of each srcset entry
only), independent of document order (second and third conjuncts) — but that
value never reaches the returned record. -/
theorem c8_images_sorted_set :
    (∀ d0 : List (String × Option String), NodupKeys d0 →
      dlookup (clean_detail d0) "Images" = none) ∧
    (∀ soup : List PageEl,
      images_field [] soup =
        pyJoin ", " (pySorted (images_amended_urls soup).dedup)) ∧
    (∀ s₁ s₂ : List PageEl, s₁.Perm s₂ →
      extract_images s₁ = extract_images s₂) := by
  refine ⟨?_, ?_, extract_images_perm_invariant⟩
  · intro d0 h
    rw [clean_detail_lookup d0 h "Images", if_pos (by decide)]
  · intro soup
    exact extract_images_eq_amended soup

/-- Witness for C8: a concrete pre-clean dict loses its Images key; a concrete
page's intermediate scan value matches the characterization; two images listed
in either order produce the same sorted value. -/
theorem c8_witness :
    dlookup (clean_detail
        [("Link", some "http://www.olx.com.pk/item/x-iid-1"),
         ("Images", some "http://a.jpg")]) "Images" = none ∧
    images_field [] [PageEl.img [("src", "http://a.jpg")]] =
      pyJoin ", "
        (pySorted (images_amended_urls [PageEl.img [("src", "http://a.jpg")]]).dedup) ∧
    extract_images
        [PageEl.img [("src", "http://b.jpg")], PageEl.img [("src", "http://a.jpg")]] =
      extract_images
        [PageEl.img [("src", "http://a.jpg")], PageEl.img [("src", "http://b.jpg")]] :=
  ⟨c8_images_sorted_set.1
      [("Link", some "http://www.olx.com.pk/item/x-iid-1"),
       ("Images", some "http://a.jpg")] (by decide),
   c8_images_sorted_set.2.1 [PageEl.img [("src", "http://a.jpg")]],
   c8_images_sorted_set.2.2 _ _
     (List.Perm.swap (PageEl.img [("src", "http://a.jpg")])
       (PageEl.img [("src", "http://b.jpg")]) [])⟩

end Olx
